import Mathlib

/-!
Verification development for `aif/cache_nim.py`, a content-addressed,
disk-persisted memoization layer.

The Python module is shallowly embedded:
* JSON-representable values become the inductive type `Json`
  (per the spec's design note: Null | Bool | Number | String | Sequence |
  Mapping; numbers are modelled as integers, which covers every value any
  claim exercises).
* `json.dumps(obj, sort_keys=True, separators=(",", ":"))` becomes
  `_stable_json_dumps`, factored as plain rendering of the key-sorted value
  (`canon`).  `hashlib.sha1(...).hexdigest()` is implemented in full over
  `Nat` with explicit reduction mod 2^32.
* The filesystem becomes an association list from path strings to file
  contents; `query_nim_cached`'s control flow is translated branch by branch,
  with exceptions modelled as `Option`/failure flags and an environment
  record saying which write operations fail.
-/

namespace Aif

/-- JSON-representable values, mirroring the payload/result values the
Python module manipulates.  Mappings keep their insertion order, as Python
dicts do. -/
inductive Json where
  | null : Json
  | bool (b : Bool) : Json
  | num (n : Int) : Json
  | str (s : String) : Json
  | arr (elems : List Json) : Json
  | obj (entries : List (String × Json)) : Json

/-! ### Small association-list store

Used both for the filesystem model (path -> content) and for Python dict
update semantics (assignment keeps the position of an existing key and
appends a fresh key at the end). -/

/-- Look up a key in an association list. -/
def sGet {α : Type} : List (String × α) → String → Option α
  | [], _ => none
  | (k, v) :: rest, p => if p = k then some v else sGet rest p

/-- Set a key in an association list: replace in place, or append at the
end, exactly like Python dict assignment (and like writing a file at a
path). -/
def sSet {α : Type} : List (String × α) → String → α → List (String × α)
  | [], p, v => [(p, v)]
  | (k, w) :: rest, p, v => if p = k then (k, v) :: rest else (k, w) :: sSet rest p v

/-- Remove a key from an association list. -/
def sDel {α : Type} : List (String × α) → String → List (String × α)
  | [], _ => []
  | (k, w) :: rest, p => if p = k then rest else (k, w) :: sDel rest p

/-! ### Canonical encoder (`_stable_json_dumps`) -/

/-- Order on mapping entries used by `sort_keys=True`: compare the keys
with the code-point lexicographic order (Python string comparison). -/
abbrev keyLE (a b : String × Json) : Prop := a.1 ≤ b.1

mutual

/-- Recursively sort every mapping's entries by key.  `canon j` is the
value whose textual form `json.dumps(j, sort_keys=True)` prints; it is also
the value `json.loads` returns when that text is read back (mapping keys
are unique in values coming from Python dicts). -/
def canon : Json → Json
  | .null => .null
  | .bool b => .bool b
  | .num n => .num n
  | .str s => .str s
  | .arr xs => .arr (canonList xs)
  | .obj kvs => .obj (List.insertionSort keyLE (canonEntries kvs))

/-- Canonicalize each element of a sequence. -/
def canonList : List Json → List Json
  | [] => []
  | x :: xs => canon x :: canonList xs

/-- Canonicalize each value of a mapping's entry list. -/
def canonEntries : List (String × Json) → List (String × Json)
  | [] => []
  | (k, v) :: kvs => (k, canon v) :: canonEntries kvs

end

/-- Hexadecimal digit characters, as `"%x"` prints them. -/
def hexDigit : Nat → Char
  | 0 => '0' | 1 => '1' | 2 => '2' | 3 => '3' | 4 => '4' | 5 => '5' | 6 => '6'
  | 7 => '7' | 8 => '8' | 9 => '9' | 10 => 'a' | 11 => 'b' | 12 => 'c'
  | 13 => 'd' | 14 => 'e' | _ => 'f'

/-- Render `n` as a backslash-u escape of four hex digits. -/
def uEscape (n : Nat) : List Char :=
  '\\' :: 'u' :: (List.range 4).map fun i => hexDigit (n / 16 ^ (3 - i) % 16)

/-- Escape one character the way `json.dumps` (with its default
`ensure_ascii=True`) does. -/
def escapeChar (c : Char) : List Char :=
  if c = '"' then ['\\', '"']
  else if c = '\\' then ['\\', '\\']
  else if c = '\n' then ['\\', 'n']
  else if c = '\r' then ['\\', 'r']
  else if c = '\t' then ['\\', 't']
  else if c.toNat = 8 then ['\\', 'b']
  else if c.toNat = 12 then ['\\', 'f']
  else if c.toNat < 32 then uEscape c.toNat
  else if c.toNat < 127 then [c]
  else if c.toNat < 65536 then uEscape c.toNat
  else
    uEscape (55296 + (c.toNat - 65536) / 1024) ++ uEscape (56320 + (c.toNat - 65536) % 1024)

/-- Render a string as a quoted, escaped JSON string literal. -/
def jsonQuote (s : String) : String :=
  String.mk ('"' :: (s.data.map escapeChar).flatten ++ ['"'])

mutual

/-- Serialize a value with separators `(",", ":")` and no whitespace, in the
order its entries are listed (key sorting is done by `canon` beforehand). -/
def render : Json → String
  | .null => "null"
  | .bool true => "true"
  | .bool false => "false"
  | .num n => toString n
  | .str s => jsonQuote s
  | .arr xs => "[" ++ renderList xs ++ "]"
  | .obj kvs => "\x7b" ++ renderEntries kvs ++ "\x7d"

/-- Comma-separated rendering of a sequence's elements. -/
def renderList : List Json → String
  | [] => ""
  | [x] => render x
  | x :: y :: xs => render x ++ "," ++ renderList (y :: xs)

/-- Comma-separated rendering of a mapping's entries. -/
def renderEntries : List (String × Json) → String
  | [] => ""
  | [(k, v)] => jsonQuote k ++ ":" ++ render v
  | (k, v) :: e :: kvs => jsonQuote k ++ ":" ++ render v ++ "," ++ renderEntries (e :: kvs)

end

/-- Embedding of `_stable_json_dumps`: deterministic JSON text, keys sorted,
no spaces (`json.dumps(obj, sort_keys=True, separators=(",", ":"))`). -/
def _stable_json_dumps (j : Json) : String :=
  render (canon j)

/-! ### UTF-8 and SHA-1 (`.encode("utf-8")`, `hashlib.sha1(...).hexdigest()`) -/

/-- UTF-8 encoding of one character, as a list of byte values. -/
def utf8Char (c : Char) : List Nat :=
  let n := c.toNat
  if n < 128 then [n]
  else if n < 2048 then [192 + n / 64, 128 + n % 64]
  else if n < 65536 then [224 + n / 4096, 128 + n / 64 % 64, 128 + n % 64]
  else [240 + n / 262144, 128 + n / 4096 % 64, 128 + n / 64 % 64, 128 + n % 64]

/-- UTF-8 encoding of a string, as a list of byte values. -/
def utf8Bytes (s : String) : List Nat :=
  (s.data.map utf8Char).flatten

/-- Reduce modulo 2^32 (machine-word truncation). -/
def w32 (n : Nat) : Nat := n % 4294967296

/-- Rotate a 32-bit value left by `k` bits (callers keep `n < 2^32`). -/
def rotl (k n : Nat) : Nat := w32 (n * 2 ^ k + n / 2 ^ (32 - k))

/-- SHA-1 message padding: append `0x80`, zeros to 56 mod 64, and the
original bit length as eight big-endian bytes. -/
def sha1Pad (msg : List Nat) : List Nat :=
  let l := msg.length
  msg ++ 128 :: List.replicate ((64 - (l + 9) % 64) % 64) 0
      ++ ((List.range 8).map fun i => 8 * l / 2 ^ (8 * (7 - i)) % 256)

/-- Split the padded message into 64-byte blocks. -/
def toBlocks : List Nat → List (List Nat)
  | [] => []
  | b :: bs => ((b :: bs).take 64) :: toBlocks ((b :: bs).drop 64)
termination_by l => l.length
decreasing_by simp [List.length_drop]; omega

/-- Combine bytes into big-endian 32-bit words. -/
def toWords : List Nat → List Nat
  | b0 :: b1 :: b2 :: b3 :: rest => (((b0 * 256 + b1) * 256 + b2) * 256 + b3) :: toWords rest
  | _ => []

/-- Extend the 16 message words by `r` additional schedule words. -/
def sha1Expand (ws : List Nat) : Nat → List Nat
  | 0 => ws
  | r + 1 =>
    let prev := sha1Expand ws r
    let l := prev.length
    prev ++ [rotl 1 ((((prev.getD (l - 3) 0).xor (prev.getD (l - 8) 0)).xor
      (prev.getD (l - 14) 0)).xor (prev.getD (l - 16) 0))]

/-- One SHA-1 round: mix schedule word `i` into the five-word state. -/
def sha1Round (ws : List Nat) (st : Nat × Nat × Nat × Nat × Nat) (i : Nat) :
    Nat × Nat × Nat × Nat × Nat :=
  let (a, b, c, d, e) := st
  let f :=
    if i < 20 then Nat.lor (Nat.land b c) (Nat.land (Nat.xor b 4294967295) d)
    else if i < 40 then Nat.xor (Nat.xor b c) d
    else if i < 60 then Nat.lor (Nat.lor (Nat.land b c) (Nat.land b d)) (Nat.land c d)
    else Nat.xor (Nat.xor b c) d
  let k :=
    if i < 20 then 1518500249
    else if i < 40 then 1859775393
    else if i < 60 then 2400959708
    else 3395469782
  let temp := w32 (rotl 5 a + f + e + k + ws.getD i 0)
  (temp, a, rotl 30 b, c, d)

/-- Process one 64-byte block into the running SHA-1 state. -/
def sha1Block (h : Nat × Nat × Nat × Nat × Nat) (block : List Nat) :
    Nat × Nat × Nat × Nat × Nat :=
  let ws := sha1Expand (toWords block) 64
  let (a, b, c, d, e) := (List.range 80).foldl (sha1Round ws) h
  (w32 (h.1 + a), w32 (h.2.1 + b), w32 (h.2.2.1 + c), w32 (h.2.2.2.1 + d), w32 (h.2.2.2.2 + e))

/-- SHA-1 digest of a byte sequence, as five 32-bit words. -/
def sha1Words (msg : List Nat) : List Nat :=
  let st := (toBlocks (sha1Pad msg)).foldl sha1Block
    (1732584193, 4023233417, 2562383102, 271733878, 3285377520)
  [st.1, st.2.1, st.2.2.1, st.2.2.2.1, st.2.2.2.2]

/-- Render a 32-bit word as exactly eight hex characters. -/
def hex8 (n : Nat) : List Char :=
  (List.range 8).map fun i => hexDigit (n / 16 ^ (7 - i) % 16)

/-- SHA-1 hexdigest: forty lowercase hexadecimal characters. -/
def sha1Hex (msg : List Nat) : String :=
  String.mk ((sha1Words msg).map hex8).flatten

/-- The composite value hashed by `_hash_key`: a mapping with the endpoint,
the payload and `version or ""`. -/
def keyMaterial (endpoint : String) (payload : Json) (version : Option String) : Json :=
  .obj [("endpoint", .str endpoint), ("payload", payload),
        ("version", .str (version.getD ""))]

/-- Embedding of `_hash_key`: SHA-1 hexdigest of the UTF-8 bytes of the
stable JSON dump of the composite material. -/
def _hash_key (endpoint : String) (payload : Json) (version : Option String) : String :=
  sha1Hex (utf8Bytes (_stable_json_dumps (keyMaterial endpoint payload version)))

/-! ### Filesystem model and `query_nim_cached` -/

/-- Content of a file in the modelled filesystem: either text that parses
as the JSON value `j` (what `_write_json` produces), or text that does not
parse as JSON (a corrupt artifact). -/
inductive FileData where
  | json (j : Json) : FileData
  | corrupt (s : String) : FileData

/-- The filesystem: a finite map from path strings to file contents. -/
abbrev FS := List (String × FileData)

/-- Embedding of `Path.exists`. -/
def pathExists (fs : FS) (p : String) : Bool :=
  (sGet fs p).isSome

/-- Embedding of `_read_json` in the callers' try blocks: `some j` when the
file exists and parses, `none` when the read or the parse raises (missing
file, corrupt content). -/
def _read_json (fs : FS) (p : String) : Option Json :=
  match sGet fs p with
  | some (.json j) => some j
  | _ => none

/-- Effect of a successful `_write_json` on the filesystem: the final path
holds text whose parse is the key-sorted value (`_stable_json_dumps` sorts
mapping keys, and mapping keys are unique in values coming from Python
dicts, so reading the file back yields `canon obj`). -/
def _write_json (fs : FS) (p : String) (obj : Json) : FS :=
  sSet fs p (.json (canon obj))

/-- Embedding of `float(...)` applied to a JSON value: succeeds on numbers
and booleans, raises (modelled `none`) on null, sequences and mappings.
(Numeric strings, which Python would also convert, are not modelled; no
stored metadata in any claim carries a string `created_at`.) -/
def pyFloat : Json → Option Int
  | .num n => some n
  | .bool b => some (if b then 1 else 0)
  | _ => none

/-- Embedding of `float(meta.get("created_at", 0))`: raises (`none`) when
the metadata value is not a mapping (`.get` on a non-dict) or when the
field's value cannot be converted. -/
def metaCreatedAt (meta : Json) : Option Int :=
  match meta with
  | .obj kvs => pyFloat ((sGet kvs "created_at").getD (.num 0))
  | _ => none

/-- Embedding of `resp["_from_cache"] = True` on the in-memory value: set
the marker field when the value is a mapping, leave it unchanged
otherwise. -/
def markFromCache : Json → Json
  | .obj kvs => .obj (sSet kvs "_from_cache" (.bool true))
  | j => j

/-- The body of the `try` block of the cache-lookup phase (source lines
59–79), entered when `refresh` is false and the result artifact exists.
Returns the served value when the block reaches a `return`, `none` when it
falls through to recompute (stale entry or caught exception), paired with
the list of paths passed to `_read_json`. -/
def tryLookup (fs : FS) (ttl : Option Int) (now : Int) (metaPath resultPath : String) :
    Option Json × List String :=
  match ttl with
  | some t =>
    if pathExists fs metaPath then
      match _read_json fs metaPath with
      | none => (none, [metaPath])
      | some meta =>
        match metaCreatedAt meta with
        | none => (none, [metaPath])
        | some created =>
          if now - created > t then (none, [metaPath])
          else
            match _read_json fs resultPath with
            | none => (none, [metaPath, resultPath])
            | some resp => (some (markFromCache resp), [metaPath, resultPath])
    else
      match _read_json fs resultPath with
      | none => (none, [resultPath])
      | some resp => (some (markFromCache resp), [resultPath])
  | none =>
    match _read_json fs resultPath with
    | none => (none, [resultPath])
    | some resp => (some (markFromCache resp), [resultPath])

/-- The whole cache-lookup phase (source line 58 guard plus the try
block): skipped entirely when `refresh` is requested or the result
artifact does not exist. -/
def lookupPhase (fs : FS) (ttl : Option Int) (now : Int) (refresh : Bool)
    (metaPath resultPath : String) : Option Json × List String :=
  if !refresh && pathExists fs resultPath then tryLookup fs ttl now metaPath resultPath
  else (none, [])

/-- Which cache-writing operations succeed during one call; a `false`
entry means the corresponding operation raises.  `saveExtraOk` is whether
the `save_extra` hook returns normally (its error, like the others, is
caught by the same handler). -/
structure Env where
  mkdirOk : Bool
  writeOk : String → Bool
  saveExtraOk : Bool

/-- Observable outcome of one `query_nim_cached` call: the returned
`(rc, response)` pair, the filesystem afterwards, the payloads passed to
`fetch_fn`, the `(response, outdir)` argument pairs passed to
`save_extra`, and the paths passed to `_read_json`. -/
structure QOut where
  rc : Int
  resp : Json
  fs : FS
  fetches : List Json
  extras : List (Json × String)
  reads : List String

/-- The persistence phase (source lines 92–102): one try block that makes
the entry directory, writes the three artifacts in order, then invokes the
optional hook; the first raising operation aborts the rest, and the
exception is caught and only warned about. -/
def persistPhase (env : Env) (fs : FS) (metaPath payloadPath resultPath outdir : String)
    (metaObj payload response : Json) (hasHook : Bool) : FS × List (Json × String) :=
  if !env.mkdirOk then (fs, [])
  else if !env.writeOk metaPath then (fs, [])
  else
    let fs1 := _write_json fs metaPath metaObj
    if !env.writeOk payloadPath then (fs1, [])
    else
      let fs2 := _write_json fs1 payloadPath payload
      if !env.writeOk resultPath then (fs2, [])
      else
        let fs3 := _write_json fs2 resultPath response
        if hasHook then (fs3, [(response, outdir)]) else (fs3, [])

/-- Entry directory for one `(cache_dir, step, key)`:
`cache_dir/step/key`. -/
def outdirOf (cacheDir step endpoint : String) (payload : Json) (version : Option String) :
    String :=
  cacheDir ++ "/" ++ step ++ "/" ++ _hash_key endpoint payload version

/-- Path of the result artifact for one entry. -/
def resultPathOf (cacheDir step endpoint : String) (payload : Json) (version : Option String) :
    String :=
  outdirOf cacheDir step endpoint payload version ++ "/result.json"

/-- Path of the metadata artifact for one entry. -/
def metaPathOf (cacheDir step endpoint : String) (payload : Json) (version : Option String) :
    String :=
  outdirOf cacheDir step endpoint payload version ++ "/meta.json"

/-- Path of the request-payload artifact for one entry. -/
def payloadPathOf (cacheDir step endpoint : String) (payload : Json) (version : Option String) :
    String :=
  outdirOf cacheDir step endpoint payload version ++ "/payload.json"

/-- The metadata object persisted on a miss (source lines 85–91). -/
def metaObjOf (step endpoint : String) (payload : Json) (version : Option String)
    (now : Int) : Json :=
  .obj [("step", .str step), ("key", .str (_hash_key endpoint payload version)),
        ("endpoint", .str endpoint),
        ("version", match version with | some v => .str v | none => .null),
        ("created_at", .num now)]

/-- Embedding of `query_nim_cached`.  `fetch` is the injected collaborator
(`fetch_fn`), `hasHook` says whether a `save_extra` hook was supplied,
`env` says which persistence operations succeed, `fs` is the filesystem
and `now` the value `time.time()` returns during the call. -/
def query_nim_cached (step endpoint : String) (payload : Json)
    (fetch : Json → Int × Json) (cacheDir : String) (version : Option String)
    (ttl_seconds : Option Int) (refresh : Bool) (hasHook : Bool)
    (env : Env) (fs : FS) (now : Int) : QOut :=
  match lookupPhase fs ttl_seconds now refresh
      (metaPathOf cacheDir step endpoint payload version)
      (resultPathOf cacheDir step endpoint payload version) with
  | (some resp, reads) => ⟨200, resp, fs, [], [], reads⟩
  | (none, reads) =>
    let rcResponse := fetch payload
    let persisted := persistPhase env fs
      (metaPathOf cacheDir step endpoint payload version)
      (payloadPathOf cacheDir step endpoint payload version)
      (resultPathOf cacheDir step endpoint payload version)
      (outdirOf cacheDir step endpoint payload version)
      (metaObjOf step endpoint payload version now) payload rcResponse.2 hasHook
    ⟨rcResponse.1, rcResponse.2, persisted.1, [payload], persisted.2, reads⟩

/-! ### Byte-level model of `_atomic_write` -/

/-- Primitive filesystem operations performed by `_atomic_write`, over a
byte-level store (path -> file text). -/
inductive FsOp where
  | mkdirP (dir : String) : FsOp
  | writeTemp (p : String) (data : String) : FsOp
  | fsyncF (p : String) : FsOp
  | replaceF (src dst : String) : FsOp

/-- Semantics of one primitive operation.  `mkdirP` and `fsyncF` do not
change any file's content; `replaceF` atomically renames `src` onto
`dst`. -/
def opApply (fs : List (String × String)) : FsOp → List (String × String)
  | .mkdirP _ => fs
  | .writeTemp p d => sSet fs p d
  | .fsyncF _ => fs
  | .replaceF src dst =>
    match sGet fs src with
    | none => fs
    | some d => sSet (sDel fs src) dst d

/-- Run a sequence of primitive operations. -/
def runOps (fs : List (String × String)) (ops : List FsOp) : List (String × String) :=
  ops.foldl opApply fs

/-- The operation sequence of `_atomic_write path data` (source lines
19–26): make the parent directory, write the full content to a temporary
file `tmp` in that directory, fsync it, then a single rename onto the
final path. -/
def atomicWriteOps (parent tmp path : String) (data : String) : List FsOp :=
  [.mkdirP parent, .writeTemp tmp data, .fsyncF tmp, .replaceF tmp path]

/-- Embedding of a completed `_atomic_write path data` run. -/
def _atomic_write (fs : List (String × String)) (parent tmp path : String) (data : String) :
    List (String × String) :=
  runOps fs (atomicWriteOps parent tmp path data)

/-! ### Semantic equality of JSON values

Two values are semantically equal when they agree up to the
insertion/iteration order of mapping entries: scalars must coincide,
sequences must match pointwise, and mappings must have the same
(duplicate-free) key set with semantically equal values at each key. -/

mutual

/-- Semantic equality of JSON values: mappings compare as finite maps
(some reordering of the first mapping's entries matches the second
pointwise), everything else structurally. -/
inductive JEquiv : Json → Json → Prop where
  | null : JEquiv .null .null
  | bool (b : Bool) : JEquiv (.bool b) (.bool b)
  | num (n : Int) : JEquiv (.num n) (.num n)
  | str (s : String) : JEquiv (.str s) (.str s)
  | arr {xs ys : List Json} : JEquivList xs ys → JEquiv (.arr xs) (.arr ys)
  | obj {xs zs ys : List (String × Json)} : (xs.map Prod.fst).Nodup →
      xs.Perm zs → JEquivEntries zs ys → JEquiv (.obj xs) (.obj ys)

/-- Pointwise semantic equality of sequences. -/
inductive JEquivList : List Json → List Json → Prop where
  | nil : JEquivList [] []
  | cons {x y : Json} {xs ys : List Json} :
      JEquiv x y → JEquivList xs ys → JEquivList (x :: xs) (y :: ys)

/-- Pointwise semantic equality of mapping entry lists: equal keys in the
same positions, semantically equal values. -/
inductive JEquivEntries : List (String × Json) → List (String × Json) → Prop where
  | nil : JEquivEntries [] []
  | cons (k : String) {v w : Json} {es fs : List (String × Json)} :
      JEquiv v w → JEquivEntries es fs → JEquivEntries ((k, v) :: es) ((k, w) :: fs)

end

instance : DecidableRel keyLE := fun a b => inferInstanceAs (Decidable (a.1 ≤ b.1))

instance : IsTotal (String × Json) keyLE := ⟨fun a b => le_total a.1 b.1⟩

instance : IsTrans (String × Json) keyLE := ⟨fun _ _ _ h1 h2 => le_trans h1 h2⟩

/-- Strict variant of the entry order, used to squeeze a unique sorted
form out of duplicate-free key lists. -/
abbrev keyLT (a b : String × Json) : Prop := a.1 < b.1

instance : IsAntisymm (String × Json) keyLT :=
  ⟨fun _ _ h1 h2 => absurd h2 (lt_asymm h1)⟩

/-- A sorted entry list with duplicate-free keys is strictly sorted. -/
theorem sorted_keyLT_of_nodup {l : List (String × Json)}
    (hs : List.Sorted keyLE l) (hnd : (l.map Prod.fst).Nodup) :
    List.Sorted keyLT l := by
  have hne : l.Pairwise fun a b => a.1 ≠ b.1 := by
    simpa [List.Nodup, List.pairwise_map] using hnd
  exact (hs.and hne).imp fun h => lt_of_le_of_ne h.1 h.2

/-- Sorting by key is invariant under permutation of an entry list whose
keys are duplicate-free. -/
theorem insertionSort_keyLE_congr {l₁ l₂ : List (String × Json)}
    (hp : l₁.Perm l₂) (hnd : (l₁.map Prod.fst).Nodup) :
    List.insertionSort keyLE l₁ = List.insertionSort keyLE l₂ := by
  have hperm : (List.insertionSort keyLE l₁).Perm (List.insertionSort keyLE l₂) :=
    (List.perm_insertionSort keyLE l₁).trans (hp.trans (List.perm_insertionSort keyLE l₂).symm)
  have hnd₁ : ((List.insertionSort keyLE l₁).map Prod.fst).Nodup :=
    (((List.perm_insertionSort keyLE l₁).map Prod.fst).nodup_iff).mpr hnd
  have hnd₂ : ((List.insertionSort keyLE l₂).map Prod.fst).Nodup :=
    ((hperm.map Prod.fst).nodup_iff).mp hnd₁
  exact List.eq_of_perm_of_sorted hperm
    (sorted_keyLT_of_nodup (List.sorted_insertionSort keyLE l₁) hnd₁)
    (sorted_keyLT_of_nodup (List.sorted_insertionSort keyLE l₂) hnd₂)

/-- The entry canonicalizer is the entrywise value canonicalizer. -/
theorem canonEntries_eq_map (l : List (String × Json)) :
    canonEntries l = l.map fun kv => (kv.1, canon kv.2) := by
  induction l with
  | nil => simp [canonEntries]
  | cons kv rest ih => cases kv; simp [canonEntries, ih]

/-- Canonicalizing entries keeps the key list. -/
theorem canonEntries_map_fst (l : List (String × Json)) :
    (canonEntries l).map Prod.fst = l.map Prod.fst := by
  simp [canonEntries_eq_map, List.map_map]

/-- Pointwise canonicalization congruence for sequences, with the
elementwise fact supplied by the caller. -/
theorem canonList_congr {xs ys : List Json} (hf : JEquivList xs ys)
    (h : ∀ x y, x ∈ xs → JEquiv x y → canon x = canon y) :
    canonList xs = canonList ys := by
  induction xs generalizing ys with
  | nil => cases hf; rfl
  | cons x xs ih =>
    cases hf with
    | cons hxy htail =>
      simp only [canonList]
      exact congrArg₂ List.cons (h _ _ (List.mem_cons_self _ _) hxy)
        (ih htail fun x y hx hxy2 => h x y (List.mem_cons_of_mem _ hx) hxy2)

/-- Pointwise canonicalization congruence for entry lists, with the
valuewise fact supplied by the caller. -/
theorem canonEntries_congr {es fs : List (String × Json)} (hf : JEquivEntries es fs)
    (h : ∀ (kv : String × Json) w, kv ∈ es → JEquiv kv.2 w → canon kv.2 = canon w) :
    canonEntries es = canonEntries fs := by
  induction es generalizing fs with
  | nil => cases hf; rfl
  | cons kv es ih =>
    obtain ⟨k, v⟩ := kv
    cases hf with
    | cons _ hvw htail =>
      simp only [canonEntries]
      exact congrArg₂ List.cons (congrArg (Prod.mk k) (h _ _ (List.mem_cons_self _ _) hvw))
        (ih htail fun kv w hkv h2 => h kv w (List.mem_cons_of_mem _ hkv) h2)

/-- Bounded-size version of canonicalization congruence: semantically
equal values canonicalize identically. -/
theorem canon_congr_aux :
    ∀ (n : Nat) (a b : Json), sizeOf a ≤ n → JEquiv a b → canon a = canon b := by
  intro n
  induction n with
  | zero =>
    intro a b ha _
    exact absurd ha (by cases a <;> simp)
  | succ n ih =>
    intro a b hsz h
    cases h with
    | null => rfl
    | bool b => rfl
    | num m => rfl
    | str s => rfl
    | @arr xs ys hl =>
      simp only [canon]
      refine congrArg Json.arr (canonList_congr hl fun x y hx hxy => ?_)
      refine ih x y ?_ hxy
      have h1 : sizeOf x < sizeOf xs := List.sizeOf_lt_of_mem hx
      simp only [Json.arr.sizeOf_spec] at hsz
      omega
    | @obj xs zs ys hnd hperm hf =>
      simp only [canon]
      have hzs : canonEntries zs = canonEntries ys := by
        refine canonEntries_congr hf fun kv w hkv hvw => ?_
        refine ih kv.2 w ?_ hvw
        have h1 : sizeOf kv < sizeOf xs := List.sizeOf_lt_of_mem (hperm.mem_iff.mpr hkv)
        obtain ⟨k, v⟩ := kv
        simp only [Json.obj.sizeOf_spec] at hsz
        simp only [Prod.mk.sizeOf_spec] at h1
        simp only []
        omega
      have hperm' : (canonEntries xs).Perm (canonEntries zs) := by
        rw [canonEntries_eq_map, canonEntries_eq_map]
        exact hperm.map _
      have hnd' : ((canonEntries xs).map Prod.fst).Nodup := by
        rw [canonEntries_map_fst]
        exact hnd
      rw [insertionSort_keyLE_congr hperm' hnd', hzs]

/-- Canonicalization congruence: semantically equal values canonicalize
identically, hence serialize identically. -/
theorem canon_congr {a b : Json} (h : JEquiv a b) : canon a = canon b :=
  canon_congr_aux (sizeOf a) a b le_rfl h

/-! ### Store and path lemmas -/

/-- Reading back the key just written. -/
theorem sGet_sSet_self {α : Type} (fs : List (String × α)) (p : String) (v : α) :
    sGet (sSet fs p v) p = some v := by
  induction fs with
  | nil => simp [sSet, sGet]
  | cons kv rest ih =>
    obtain ⟨k, w⟩ := kv
    by_cases h : p = k <;> simp [sSet, sGet, h, ih]

/-- Writing one key does not change another. -/
theorem sGet_sSet_ne {α : Type} (fs : List (String × α)) {p q : String} (v : α)
    (h : p ≠ q) : sGet (sSet fs q v) p = sGet fs p := by
  induction fs with
  | nil => simp [sSet, sGet, h]
  | cons kv rest ih =>
    obtain ⟨k, w⟩ := kv
    by_cases hq : q = k
    · subst hq
      simp [sSet, sGet, h, ih]
    · by_cases hp : p = k <;> simp [sSet, sGet, hp, hq, ih]

/-- Appending on the left is cancellative for strings. -/
theorem string_append_cancel {s a b : String} : s ++ a = s ++ b ↔ a = b := by
  constructor
  · intro h
    have hd : s.data ++ a.data = s.data ++ b.data := by
      have := congrArg String.data h
      simpa [String.data_append] using this
    exact congrArg String.mk (List.append_cancel_left hd)
  · intro h
    rw [h]

/-- The three artifact paths of one entry are pairwise distinct. -/
theorem artifact_paths_distinct (cacheDir step endpoint : String) (payload : Json)
    (version : Option String) :
    resultPathOf cacheDir step endpoint payload version ≠
      metaPathOf cacheDir step endpoint payload version ∧
    resultPathOf cacheDir step endpoint payload version ≠
      payloadPathOf cacheDir step endpoint payload version ∧
    metaPathOf cacheDir step endpoint payload version ≠
      payloadPathOf cacheDir step endpoint payload version := by
  refine ⟨?_, ?_, ?_⟩ <;> intro h
  · rw [resultPathOf, metaPathOf, string_append_cancel] at h
    exact absurd h (by decide)
  · rw [resultPathOf, payloadPathOf, string_append_cancel] at h
    exact absurd h (by decide)
  · rw [metaPathOf, payloadPathOf, string_append_cancel] at h
    exact absurd h (by decide)

/-! ### Characterization lemmas for the lookup, persist and query phases -/

/-- With `refresh=true` the lookup phase is skipped: no read happens and
the decision is a miss. -/
theorem lookupPhase_refresh (fs : FS) (ttl : Option Int) (now : Int) (mp rp : String) :
    lookupPhase fs ttl now true mp rp = (none, []) := by
  simp [lookupPhase]

/-- When the result artifact does not exist the lookup phase is a miss
without any read. -/
theorem lookupPhase_absent (fs : FS) (ttl : Option Int) (now : Int) (refresh : Bool)
    (mp rp : String) (h : sGet fs rp = none) :
    lookupPhase fs ttl now refresh mp rp = (none, []) := by
  simp [lookupPhase, pathExists, h]

/-- Without a TTL, an existing parseable result artifact is served
directly. -/
theorem lookupPhase_noTtl_hit (fs : FS) (now : Int) (mp rp : String) {r : Json}
    (h : sGet fs rp = some (.json r)) :
    lookupPhase fs none now false mp rp = (some (markFromCache r), [rp]) := by
  simp [lookupPhase, pathExists, h, tryLookup, _read_json]

/-- With a TTL and readable metadata carrying a convertible `created_at`,
the try block compares the age against the TTL and then reads the result
artifact. -/
theorem tryLookup_ttl_meta (fs : FS) (now : Int) (mp rp : String) {m : Json} {c t : Int}
    (hmp : sGet fs mp = some (.json m)) (hc : metaCreatedAt m = some c) :
    tryLookup fs (some t) now mp rp =
      if now - c > t then (none, [mp])
      else
        match _read_json fs rp with
        | none => (none, [mp, rp])
        | some resp => (some (markFromCache resp), [mp, rp]) := by
  simp [tryLookup, pathExists, _read_json, hmp, hc]

/-- A corrupt result artifact makes every lookup-phase branch a miss. -/
theorem lookupPhase_fst_none_of_corrupt (fs : FS) (ttl : Option Int) (now : Int)
    (refresh : Bool) (mp rp : String) {s : String}
    (h : sGet fs rp = some (.corrupt s)) :
    (lookupPhase fs ttl now refresh mp rp).1 = none := by
  have hrpn : _read_json fs rp = none := by simp [_read_json, h]
  rcases hr : (!refresh && pathExists fs rp) with _ | _
  · simp [lookupPhase, hr]
  · rcases ttl with _ | t
    · simp [lookupPhase, hr, tryLookup, hrpn]
    · by_cases hm : pathExists fs mp
      · rcases hread : _read_json fs mp with _ | meta
        · simp [lookupPhase, hr, tryLookup, hm, hread]
        · rcases hcr : metaCreatedAt meta with _ | created
          · simp [lookupPhase, hr, tryLookup, hm, hread, hcr]
          · by_cases hst : now - created > t <;>
              simp [lookupPhase, hr, tryLookup, hm, hread, hcr, hst, hrpn]
      · simp [lookupPhase, hr, tryLookup, hm, hrpn]

/-- When every persistence operation succeeds, the three artifacts are
written in order and the hook (if supplied) is invoked with the response
and the entry directory. -/
theorem persistPhase_allOk {env : Env} (fs : FS) {mp pp rp : String} (od : String)
    (mo pl r : Json) (hasHook : Bool) (h1 : env.mkdirOk = true)
    (h2 : env.writeOk mp = true) (h3 : env.writeOk pp = true)
    (h4 : env.writeOk rp = true) :
    persistPhase env fs mp pp rp od mo pl r hasHook =
      (_write_json (_write_json (_write_json fs mp mo) pp pl) rp r,
       if hasHook then [(r, od)] else []) := by
  cases hasHook <;> simp [persistPhase, h1, h2, h3, h4]

/-- The hook-invocation record of the persist phase: nonempty exactly when
a hook is supplied and the directory creation and all three artifact
writes succeed. -/
theorem persistPhase_extras (env : Env) (fs : FS) (mp pp rp od : String)
    (mo pl r : Json) (hasHook : Bool) :
    (persistPhase env fs mp pp rp od mo pl r hasHook).2 =
      if env.mkdirOk && env.writeOk mp && env.writeOk pp && env.writeOk rp && hasHook
      then [(r, od)] else [] := by
  rcases h1 : env.mkdirOk with _ | _ <;>
    rcases h2 : env.writeOk mp with _ | _ <;>
      rcases h3 : env.writeOk pp with _ | _ <;>
        rcases h4 : env.writeOk rp with _ | _ <;>
          cases hasHook <;>
            simp [persistPhase, h1, h2, h3, h4]

/-- A call whose lookup phase serves a value returns it with status 200,
touches nothing, calls no collaborator and no hook. -/
theorem query_hit (step endpoint : String) (payload : Json) (fetch : Json → Int × Json)
    (cacheDir : String) (version : Option String) (ttl : Option Int) (refresh : Bool)
    (hasHook : Bool) (env : Env) (fs : FS) (now : Int) {r : Json} {rds : List String}
    (h : lookupPhase fs ttl now refresh
        (metaPathOf cacheDir step endpoint payload version)
        (resultPathOf cacheDir step endpoint payload version) = (some r, rds)) :
    query_nim_cached step endpoint payload fetch cacheDir version ttl refresh hasHook
      env fs now = ⟨200, r, fs, [], [], rds⟩ := by
  unfold query_nim_cached
  rw [h]

/-- A call whose lookup phase decides a miss invokes the collaborator once
and returns its result verbatim; persistence happens through
`persistPhase` with the recorded hook invocations. -/
theorem query_miss (step endpoint : String) (payload : Json) (fetch : Json → Int × Json)
    (cacheDir : String) (version : Option String) (ttl : Option Int) (refresh : Bool)
    (hasHook : Bool) (env : Env) (fs : FS) (now : Int)
    (h : (lookupPhase fs ttl now refresh
        (metaPathOf cacheDir step endpoint payload version)
        (resultPathOf cacheDir step endpoint payload version)).1 = none) :
    query_nim_cached step endpoint payload fetch cacheDir version ttl refresh hasHook
      env fs now =
      ⟨(fetch payload).1, (fetch payload).2,
       (persistPhase env fs (metaPathOf cacheDir step endpoint payload version)
         (payloadPathOf cacheDir step endpoint payload version)
         (resultPathOf cacheDir step endpoint payload version)
         (outdirOf cacheDir step endpoint payload version)
         (metaObjOf step endpoint payload version now) payload (fetch payload).2
         hasHook).1,
       [payload],
       (persistPhase env fs (metaPathOf cacheDir step endpoint payload version)
         (payloadPathOf cacheDir step endpoint payload version)
         (resultPathOf cacheDir step endpoint payload version)
         (outdirOf cacheDir step endpoint payload version)
         (metaObjOf step endpoint payload version now) payload (fetch payload).2
         hasHook).2,
       (lookupPhase fs ttl now refresh
         (metaPathOf cacheDir step endpoint payload version)
         (resultPathOf cacheDir step endpoint payload version)).2⟩ := by
  have hEq : lookupPhase fs ttl now refresh
      (metaPathOf cacheDir step endpoint payload version)
      (resultPathOf cacheDir step endpoint payload version) =
      (none, (lookupPhase fs ttl now refresh
        (metaPathOf cacheDir step endpoint payload version)
        (resultPathOf cacheDir step endpoint payload version)).2) := by
    rw [← h]
  unfold query_nim_cached
  rw [hEq]

/-! ### Shape of the SHA-1 hexdigest -/

/-- Each digest word renders as exactly eight characters. -/
theorem hex8_length (n : Nat) : (hex8 n).length = 8 := by
  simp [hex8]

/-- The hexdigest has exactly forty characters. -/
theorem sha1Hex_length (m : List Nat) : (sha1Hex m).length = 40 := by
  show (((sha1Words m).map hex8).flatten).length = 40
  simp [sha1Words, hex8_length]

/-- Every digit the hex renderer produces is a lowercase hex character. -/
theorem hexDigit_mem (k : Nat) : hexDigit k ∈ ("0123456789abcdef").data := by
  match k with
  | 0 => decide
  | 1 => decide
  | 2 => decide
  | 3 => decide
  | 4 => decide
  | 5 => decide
  | 6 => decide
  | 7 => decide
  | 8 => decide
  | 9 => decide
  | 10 => decide
  | 11 => decide
  | 12 => decide
  | 13 => decide
  | 14 => decide
  | n + 15 => exact (by decide : 'f' ∈ ("0123456789abcdef").data)

/-- Every character of the hexdigest is a lowercase hex character. -/
theorem sha1Hex_chars (m : List Nat) :
    ∀ c ∈ (sha1Hex m).data, c ∈ ("0123456789abcdef").data := by
  intro c hc
  have h1 : c ∈ ((sha1Words m).map hex8).flatten := hc
  rw [List.mem_flatten] at h1
  obtain ⟨l, hl, hcl⟩ := h1
  rw [List.mem_map] at hl
  obtain ⟨w, _, rfl⟩ := hl
  rw [hex8, List.mem_map] at hcl
  obtain ⟨i, _, rfl⟩ := hcl
  exact hexDigit_mem _

/-! ### The claims -/

/-- C1: Key derivation is deterministic and order-independent: for every
two (endpoint, payload, version) triples whose payloads are semantically
equal mappings (same key-value contents, any mapping key insertion order),
the canonical encoder produces byte-identical output and `_hash_key`
produces the identical fixed-length (40 lowercase hex characters)
cache key. -/
theorem C1_key_derivation_deterministic (endpoint : String) (version : Option String)
    {p₁ p₂ : Json} (h : JEquiv p₁ p₂) :
    _stable_json_dumps (keyMaterial endpoint p₁ version) =
      _stable_json_dumps (keyMaterial endpoint p₂ version) ∧
    _hash_key endpoint p₁ version = _hash_key endpoint p₂ version ∧
    (_hash_key endpoint p₁ version).length = 40 ∧
    ∀ c ∈ (_hash_key endpoint p₁ version).data, c ∈ ("0123456789abcdef").data := by
  have hc : canon p₁ = canon p₂ := canon_congr h
  have hdump : _stable_json_dumps (keyMaterial endpoint p₁ version) =
      _stable_json_dumps (keyMaterial endpoint p₂ version) := by
    simp [_stable_json_dumps, keyMaterial, canon, canonEntries, hc]
  refine ⟨hdump, ?_, sha1Hex_length _, sha1Hex_chars _⟩
  simp [_hash_key, hdump]

/-- Witness for C1: two concrete payload mappings with the same contents
in different insertion orders are semantically equal and hash to the
identical key. -/
theorem C1_key_derivation_deterministic_witness :
    JEquiv (Json.obj [("b", Json.num 2), ("a", Json.num 1)])
      (Json.obj [("a", Json.num 1), ("b", Json.num 2)]) ∧
    _hash_key "v1/embed" (Json.obj [("b", Json.num 2), ("a", Json.num 1)]) (some "m1") =
      _hash_key "v1/embed" (Json.obj [("a", Json.num 1), ("b", Json.num 2)]) (some "m1") :=
  have heq : JEquiv (Json.obj [("b", Json.num 2), ("a", Json.num 1)])
      (Json.obj [("a", Json.num 1), ("b", Json.num 2)]) :=
    JEquiv.obj (by decide) (List.Perm.swap ("a", Json.num 1) ("b", Json.num 2) [])
      (JEquivEntries.cons "a" (JEquiv.num 1)
        (JEquivEntries.cons "b" (JEquiv.num 2) JEquivEntries.nil))
  ⟨heq, (C1_key_derivation_deterministic "v1/embed" (some "m1") heq).2.1⟩

/-- C5: Corruption resilience: whenever the result artifact exists but its
content is unparseable, the call does not propagate any error, treats the
entry as a miss, invokes the collaborator once and returns its result. -/
theorem C5_corrupt_result_recomputes (step endpoint : String) (payload : Json)
    (fetch : Json → Int × Json) (cacheDir : String) (version : Option String)
    (ttl : Option Int) (refresh hasHook : Bool) (env : Env) (fs : FS) (now : Int)
    {s : String}
    (h : sGet fs (resultPathOf cacheDir step endpoint payload version) =
      some (.corrupt s)) :
    (query_nim_cached step endpoint payload fetch cacheDir version ttl refresh hasHook
      env fs now).fetches = [payload] ∧
    (query_nim_cached step endpoint payload fetch cacheDir version ttl refresh hasHook
      env fs now).rc = (fetch payload).1 ∧
    (query_nim_cached step endpoint payload fetch cacheDir version ttl refresh hasHook
      env fs now).resp = (fetch payload).2 := by
  have hm := lookupPhase_fst_none_of_corrupt fs ttl now refresh
    (metaPathOf cacheDir step endpoint payload version)
    (resultPathOf cacheDir step endpoint payload version) h
  rw [query_miss step endpoint payload fetch cacheDir version ttl refresh hasHook
    env fs now hm]
  exact ⟨rfl, rfl, rfl⟩

/-- Witness for C5: a store holding one corrupt result artifact makes the
concrete call refetch and return the collaborator's pair. -/
theorem C5_corrupt_result_recomputes_witness :
    sGet [((resultPathOf "c" "s" "e" Json.null none), FileData.corrupt "zzz")]
      (resultPathOf "c" "s" "e" Json.null none) = some (FileData.corrupt "zzz") ∧
    (query_nim_cached "s" "e" Json.null (fun _ => (7, Json.str "fresh")) "c" none
      (some 60) false false ⟨true, fun _ => true, true⟩
      [((resultPathOf "c" "s" "e" Json.null none), FileData.corrupt "zzz")]
      0).fetches = [Json.null] :=
  have h : sGet [((resultPathOf "c" "s" "e" Json.null none), FileData.corrupt "zzz")]
      (resultPathOf "c" "s" "e" Json.null none) = some (FileData.corrupt "zzz") := by
    simp [sGet]
  ⟨h, (C5_corrupt_result_recomputes "s" "e" Json.null (fun _ => (7, Json.str "fresh"))
    "c" none (some 60) false false ⟨true, fun _ => true, true⟩ _ 0 h).1⟩

/-- C6: Miss-path transparency to persistence failures: on every miss the
call returns exactly the collaborator's `(rc, result)` pair verbatim,
including non-success status codes, for every combination of failing
directory creation, artifact writes and hook invocation. -/
theorem C6_miss_returns_fetch_verbatim (step endpoint : String) (payload : Json)
    (fetch : Json → Int × Json) (cacheDir : String) (version : Option String)
    (ttl : Option Int) (refresh hasHook : Bool) (env : Env) (fs : FS) (now : Int)
    (h : (lookupPhase fs ttl now refresh
      (metaPathOf cacheDir step endpoint payload version)
      (resultPathOf cacheDir step endpoint payload version)).1 = none) :
    (query_nim_cached step endpoint payload fetch cacheDir version ttl refresh hasHook
      env fs now).rc = (fetch payload).1 ∧
    (query_nim_cached step endpoint payload fetch cacheDir version ttl refresh hasHook
      env fs now).resp = (fetch payload).2 ∧
    (query_nim_cached step endpoint payload fetch cacheDir version ttl refresh hasHook
      env fs now).fetches = [payload] := by
  rw [query_miss step endpoint payload fetch cacheDir version ttl refresh hasHook
    env fs now h]
  exact ⟨rfl, rfl, rfl⟩

/-- Witness for C6: with an empty store, every write failing and a hook
that would fail too, a concrete miss still returns the collaborator's
non-success pair unchanged. -/
theorem C6_miss_returns_fetch_verbatim_witness :
    (lookupPhase [] none 0 false (metaPathOf "c" "s" "e" Json.null none)
      (resultPathOf "c" "s" "e" Json.null none)).1 = none ∧
    (query_nim_cached "s" "e" Json.null (fun _ => (500, Json.str "err")) "c" none
      none false true ⟨false, fun _ => false, false⟩ [] 0).rc = 500 ∧
    (query_nim_cached "s" "e" Json.null (fun _ => (500, Json.str "err")) "c" none
      none false true ⟨false, fun _ => false, false⟩ [] 0).resp = Json.str "err" :=
  have h : (lookupPhase [] none 0 false (metaPathOf "c" "s" "e" Json.null none)
      (resultPathOf "c" "s" "e" Json.null none)).1 = none := by
    rw [lookupPhase_absent [] none 0 false _ _ rfl]
  have happ := C6_miss_returns_fetch_verbatim "s" "e" Json.null
    (fun _ => (500, Json.str "err")) "c" none none false true
    ⟨false, fun _ => false, false⟩ [] 0 h
  ⟨h, happ.1, happ.2.1⟩

/-- C7: Refresh bypass: with `refresh=true` the collaborator is always
invoked — even when a valid cached entry exists — and no stored artifact
is read. -/
theorem C7_refresh_bypass (step endpoint : String) (payload : Json)
    (fetch : Json → Int × Json) (cacheDir : String) (version : Option String)
    (ttl : Option Int) (hasHook : Bool) (env : Env) (fs : FS) (now : Int) :
    (query_nim_cached step endpoint payload fetch cacheDir version ttl true hasHook
      env fs now).fetches = [payload] ∧
    (query_nim_cached step endpoint payload fetch cacheDir version ttl true hasHook
      env fs now).reads = [] := by
  have h : (lookupPhase fs ttl now true
      (metaPathOf cacheDir step endpoint payload version)
      (resultPathOf cacheDir step endpoint payload version)).1 = none := by
    rw [lookupPhase_refresh]
  rw [query_miss step endpoint payload fetch cacheDir version ttl true hasHook
    env fs now h]
  refine ⟨rfl, ?_⟩
  rw [lookupPhase_refresh]

/-- C8: Per-artifact write atomicity: `_atomic_write` makes the parent
directory, writes the full content to a temporary file in it, fsyncs, and
performs a single rename onto the final path; an observer crashing the
sequence at any point — including mid-way through the temporary write —
sees the prior content (or absence) at the final path, and after the
rename sees exactly the new full content. -/
theorem C8_atomic_write_crash_safe (fs : List (String × String))
    (parent tmp path data : String) (htmp : tmp ≠ path) :
    atomicWriteOps parent tmp path data =
      [.mkdirP parent, .writeTemp tmp data, .fsyncF tmp, .replaceF tmp path] ∧
    (∀ k, k < 4 →
      sGet (runOps fs ((atomicWriteOps parent tmp path data).take k)) path =
        sGet fs path) ∧
    (∀ part : String,
      sGet (opApply (runOps fs ((atomicWriteOps parent tmp path data).take 1))
        (.writeTemp tmp part)) path = sGet fs path) ∧
    sGet (_atomic_write fs parent tmp path data) path = some data := by
  have hne : path ≠ tmp := fun hh => htmp hh.symm
  refine ⟨rfl, ?_, ?_, ?_⟩
  · intro k hk
    interval_cases k <;>
      simp [atomicWriteOps, runOps, opApply, sGet_sSet_ne _ _ hne]
  · intro part
    simp [atomicWriteOps, runOps, opApply, sGet_sSet_ne _ _ hne]
  · simp [_atomic_write, atomicWriteOps, runOps, opApply, sGet_sSet_self,
      sGet_sSet_ne _ _ hne]

/-- Witness for C8: a concrete temporary path distinct from the final path
leaves the final path holding exactly the new content after the run. -/
theorem C8_atomic_write_crash_safe_witness :
    ("d/tmpXYZ" ≠ "d/result.json") ∧
    sGet (_atomic_write [] "d" "d/tmpXYZ" "d/result.json" "payload-bytes")
      "d/result.json" = some "payload-bytes" :=
  ⟨by decide, (C8_atomic_write_crash_safe [] "d" "d/tmpXYZ" "d/result.json"
    "payload-bytes" (by decide)).2.2.2⟩

/-- C2: Hit idempotence: when a first call (refresh off, no TTL) misses,
fetches `(rc0, r0)` and persists successfully, a second identical call
invokes no collaborator and returns status 200 with the stored value —
equal to `r0` up to key order, with the `_from_cache` marker set when it
is a mapping — and writes nothing back to storage. -/
theorem C2_hit_idempotence (step endpoint : String) (payload r0 : Json) (rc0 : Int)
    (fetch₁ fetch₂ : Json → Int × Json) (cacheDir : String) (version : Option String)
    (hasHook hasHook₂ : Bool) (env env₂ : Env) (fs : FS) (now now₂ : Int)
    (out1 out2 : QOut)
    (hf : fetch₁ payload = (rc0, r0))
    (hmkdir : env.mkdirOk = true)
    (hw1 : env.writeOk (metaPathOf cacheDir step endpoint payload version) = true)
    (hw2 : env.writeOk (payloadPathOf cacheDir step endpoint payload version) = true)
    (hw3 : env.writeOk (resultPathOf cacheDir step endpoint payload version) = true)
    (hmiss : sGet fs (resultPathOf cacheDir step endpoint payload version) = none)
    (hout1 : out1 = query_nim_cached step endpoint payload fetch₁ cacheDir version none
      false hasHook env fs now)
    (hout2 : out2 = query_nim_cached step endpoint payload fetch₂ cacheDir version none
      false hasHook₂ env₂ out1.fs now₂) :
    out1.rc = rc0 ∧ out1.resp = r0 ∧ out1.fetches = [payload] ∧
    sGet out1.fs (resultPathOf cacheDir step endpoint payload version) =
      some (.json (canon r0)) ∧
    out2.fetches = [] ∧ out2.rc = 200 ∧
    out2.resp = markFromCache (canon r0) ∧ out2.fs = out1.fs := by
  have hlp1 : (lookupPhase fs none now false
      (metaPathOf cacheDir step endpoint payload version)
      (resultPathOf cacheDir step endpoint payload version)).1 = none := by
    rw [lookupPhase_absent fs none now false _ _ hmiss]
  have hq1 := query_miss step endpoint payload fetch₁ cacheDir version none false
    hasHook env fs now hlp1
  rw [persistPhase_allOk fs _ _ _ _ hasHook hmkdir hw1 hw2 hw3, hf] at hq1
  have hfs1 : out1.fs = _write_json (_write_json (_write_json fs
      (metaPathOf cacheDir step endpoint payload version)
      (metaObjOf step endpoint payload version now))
      (payloadPathOf cacheDir step endpoint payload version) payload)
      (resultPathOf cacheDir step endpoint payload version) r0 := by
    rw [hout1, hq1]
  have hres : sGet out1.fs (resultPathOf cacheDir step endpoint payload version) =
      some (.json (canon r0)) := by
    rw [hfs1, _write_json, sGet_sSet_self]
  have hlp2 := lookupPhase_noTtl_hit out1.fs now₂
    (metaPathOf cacheDir step endpoint payload version)
    (resultPathOf cacheDir step endpoint payload version) hres
  have hq2 := query_hit step endpoint payload fetch₂ cacheDir version none false
    hasHook₂ env₂ out1.fs now₂ hlp2
  rw [hout2, hq2]
  refine ⟨?_, ?_, ?_, hres, rfl, rfl, rfl, rfl⟩ <;> rw [hout1, hq1]

/-- Witness for C2: a concrete first call on an empty store followed by an
identical second call exhibits the cached hit with the injected marker. -/
theorem C2_hit_idempotence_witness :
    (fun (_ : Json) => ((201 : Int), Json.obj [("v", Json.num 3)]))
        (Json.obj [("text", Json.str "hi")]) = (201, Json.obj [("v", Json.num 3)]) ∧
    sGet ([] : FS)
      (resultPathOf "c" "s" "e" (Json.obj [("text", Json.str "hi")]) none) = none ∧
    (query_nim_cached "s" "e" (Json.obj [("text", Json.str "hi")])
      (fun _ => (999, Json.null)) "c" none none false false ⟨true, fun _ => true, true⟩
      (query_nim_cached "s" "e" (Json.obj [("text", Json.str "hi")])
        (fun _ => (201, Json.obj [("v", Json.num 3)])) "c" none none false false
        ⟨true, fun _ => true, true⟩ [] 0).fs 5).fetches = [] ∧
    (query_nim_cached "s" "e" (Json.obj [("text", Json.str "hi")])
      (fun _ => (999, Json.null)) "c" none none false false ⟨true, fun _ => true, true⟩
      (query_nim_cached "s" "e" (Json.obj [("text", Json.str "hi")])
        (fun _ => (201, Json.obj [("v", Json.num 3)])) "c" none none false false
        ⟨true, fun _ => true, true⟩ [] 0).fs 5).resp =
      markFromCache (canon (Json.obj [("v", Json.num 3)])) :=
  have happ := C2_hit_idempotence "s" "e" (Json.obj [("text", Json.str "hi")])
    (Json.obj [("v", Json.num 3)]) 201
    (fun _ => (201, Json.obj [("v", Json.num 3)])) (fun _ => (999, Json.null))
    "c" none false false ⟨true, fun _ => true, true⟩ ⟨true, fun _ => true, true⟩
    [] 0 5 _ _ rfl rfl rfl rfl rfl rfl rfl rfl
  ⟨rfl, rfl, happ.2.2.2.2.1, happ.2.2.2.2.2.2.1⟩

/-- C3 counterexample: with a TTL set, a parseable result artifact present
and the metadata artifact present but corrupt, the concrete call invokes
the collaborator and returns its fresh pair — it does not fall through to
serving the stored result as a hit, contradicting the claim that a
missing-or-unreadable metadata artifact is always served leniently. -/
theorem C3_lenient_ttl_counterexample :
    (query_nim_cached "s" "e" Json.null (fun _ => (7, Json.str "fresh")) "c" none
      (some 60) false false ⟨true, fun _ => true, true⟩
      [((metaPathOf "c" "s" "e" Json.null none), FileData.corrupt "oops"),
       ((resultPathOf "c" "s" "e" Json.null none), FileData.json (Json.str "stored"))]
      0).fetches = [Json.null] ∧
    (query_nim_cached "s" "e" Json.null (fun _ => (7, Json.str "fresh")) "c" none
      (some 60) false false ⟨true, fun _ => true, true⟩
      [((metaPathOf "c" "s" "e" Json.null none), FileData.corrupt "oops"),
       ((resultPathOf "c" "s" "e" Json.null none), FileData.json (Json.str "stored"))]
      0).rc = 7 ∧
    (query_nim_cached "s" "e" Json.null (fun _ => (7, Json.str "fresh")) "c" none
      (some 60) false false ⟨true, fun _ => true, true⟩
      [((metaPathOf "c" "s" "e" Json.null none), FileData.corrupt "oops"),
       ((resultPathOf "c" "s" "e" Json.null none), FileData.json (Json.str "stored"))]
      0).resp = Json.str "fresh" := by
  have hne : resultPathOf "c" "s" "e" Json.null none ≠
      metaPathOf "c" "s" "e" Json.null none :=
    (artifact_paths_distinct "c" "s" "e" Json.null none).1
  have hres : sGet
      [((metaPathOf "c" "s" "e" Json.null none), FileData.corrupt "oops"),
       ((resultPathOf "c" "s" "e" Json.null none), FileData.json (Json.str "stored"))]
      (resultPathOf "c" "s" "e" Json.null none) =
      some (FileData.json (Json.str "stored")) := by
    simp [sGet, hne]
  have hmp : sGet
      [((metaPathOf "c" "s" "e" Json.null none), FileData.corrupt "oops"),
       ((resultPathOf "c" "s" "e" Json.null none), FileData.json (Json.str "stored"))]
      (metaPathOf "c" "s" "e" Json.null none) = some (FileData.corrupt "oops") := by
    simp [sGet]
  have h1 : (lookupPhase
      [((metaPathOf "c" "s" "e" Json.null none), FileData.corrupt "oops"),
       ((resultPathOf "c" "s" "e" Json.null none), FileData.json (Json.str "stored"))]
      (some 60) 0 false (metaPathOf "c" "s" "e" Json.null none)
      (resultPathOf "c" "s" "e" Json.null none)).1 = none := by
    simp [lookupPhase, pathExists, hres, tryLookup, hmp, _read_json]
  rw [query_miss "s" "e" Json.null (fun _ => (7, Json.str "fresh")) "c" none (some 60)
    false false ⟨true, fun _ => true, true⟩ _ 0 h1]
  exact ⟨rfl, rfl, rfl⟩

/-- C3 (amended): with a TTL set and the result artifact present and
parseable, a missing metadata artifact falls through to serving the result
as a hit (TTL treated as not yet expired); a metadata artifact that exists
but cannot be parsed, however, aborts the lookup, and the call treats the
entry as a miss and recomputes. -/
theorem C3_lenient_ttl_missing_meta_only (step endpoint : String) (payload : Json)
    (fetch : Json → Int × Json) (cacheDir : String) (version : Option String)
    (hasHook : Bool) (env : Env) (fs : FS) (now : Int) (r : Json) (t : Int)
    (out : QOut)
    (hres : sGet fs (resultPathOf cacheDir step endpoint payload version) =
      some (.json r))
    (hout : out = query_nim_cached step endpoint payload fetch cacheDir version
      (some t) false hasHook env fs now) :
    (sGet fs (metaPathOf cacheDir step endpoint payload version) = none →
      out.rc = 200 ∧ out.resp = markFromCache r ∧ out.fetches = []) ∧
    (∀ s, sGet fs (metaPathOf cacheDir step endpoint payload version) =
        some (.corrupt s) →
      out.fetches = [payload] ∧ out.rc = (fetch payload).1 ∧
      out.resp = (fetch payload).2) := by
  subst hout
  constructor
  · intro hmp
    have h2 : lookupPhase fs (some t) now false
        (metaPathOf cacheDir step endpoint payload version)
        (resultPathOf cacheDir step endpoint payload version) =
        (some (markFromCache r), [resultPathOf cacheDir step endpoint payload version]) := by
      simp [lookupPhase, pathExists, hres, tryLookup, hmp, _read_json]
    rw [query_hit step endpoint payload fetch cacheDir version (some t) false hasHook
      env fs now h2]
    exact ⟨rfl, rfl, rfl⟩
  · intro s hmp
    have h1 : (lookupPhase fs (some t) now false
        (metaPathOf cacheDir step endpoint payload version)
        (resultPathOf cacheDir step endpoint payload version)).1 = none := by
      simp [lookupPhase, pathExists, hres, tryLookup, hmp, _read_json]
    rw [query_miss step endpoint payload fetch cacheDir version (some t) false hasHook
      env fs now h1]
    exact ⟨rfl, rfl, rfl⟩

/-- Witness for the amended C3: with a readable result artifact and no
metadata artifact at all, a concrete TTL-carrying call serves the stored
value as a hit without refetching. -/
theorem C3_lenient_ttl_missing_meta_only_witness :
    sGet [((resultPathOf "c" "s" "e" Json.null none), FileData.json (Json.str "v"))]
      (resultPathOf "c" "s" "e" Json.null none) = some (FileData.json (Json.str "v")) ∧
    sGet [((resultPathOf "c" "s" "e" Json.null none), FileData.json (Json.str "v"))]
      (metaPathOf "c" "s" "e" Json.null none) = none ∧
    (query_nim_cached "s" "e" Json.null (fun _ => (7, Json.str "fresh")) "c" none
      (some 60) false false ⟨true, fun _ => true, true⟩
      [((resultPathOf "c" "s" "e" Json.null none), FileData.json (Json.str "v"))]
      0).rc = 200 ∧
    (query_nim_cached "s" "e" Json.null (fun _ => (7, Json.str "fresh")) "c" none
      (some 60) false false ⟨true, fun _ => true, true⟩
      [((resultPathOf "c" "s" "e" Json.null none), FileData.json (Json.str "v"))]
      0).fetches = [] :=
  have hres : sGet
      [((resultPathOf "c" "s" "e" Json.null none), FileData.json (Json.str "v"))]
      (resultPathOf "c" "s" "e" Json.null none) =
      some (FileData.json (Json.str "v")) := by
    simp [sGet]
  have hmp : sGet
      [((resultPathOf "c" "s" "e" Json.null none), FileData.json (Json.str "v"))]
      (metaPathOf "c" "s" "e" Json.null none) = none := by
    have hne : metaPathOf "c" "s" "e" Json.null none ≠
        resultPathOf "c" "s" "e" Json.null none :=
      fun h => (artifact_paths_distinct "c" "s" "e" Json.null none).1 h.symm
    simp [sGet, hne]
  have happ := (C3_lenient_ttl_missing_meta_only "s" "e" Json.null
    (fun _ => (7, Json.str "fresh")) "c" none false ⟨true, fun _ => true, true⟩
    [((resultPathOf "c" "s" "e" Json.null none), FileData.json (Json.str "v"))]
    0 (Json.str "v") 60 _ hres rfl).1 hmp
  ⟨hres, hmp, happ.1, happ.2.2⟩

/-- C4: TTL expiry boundary is strict: with a TTL set, readable metadata
carrying `created_at = c` and a parseable result artifact, the call
refetches exactly when the age `now - c` strictly exceeds the TTL, and
serves the stored result as a hit otherwise (age equal to the TTL is still
fresh). -/
theorem C4_ttl_strict_boundary (step endpoint : String) (payload : Json)
    (fetch : Json → Int × Json) (cacheDir : String) (version : Option String)
    (hasHook : Bool) (env : Env) (fs : FS) (now : Int) (m r : Json) (c t : Int)
    (out : QOut)
    (hmeta : sGet fs (metaPathOf cacheDir step endpoint payload version) =
      some (.json m))
    (hc : metaCreatedAt m = some c)
    (hres : sGet fs (resultPathOf cacheDir step endpoint payload version) =
      some (.json r))
    (hout : out = query_nim_cached step endpoint payload fetch cacheDir version
      (some t) false hasHook env fs now) :
    (now - c > t →
      out.fetches = [payload] ∧ out.rc = (fetch payload).1 ∧
      out.resp = (fetch payload).2) ∧
    (¬ now - c > t →
      out.fetches = [] ∧ out.rc = 200 ∧ out.resp = markFromCache r) := by
  subst hout
  have hlp : lookupPhase fs (some t) now false
      (metaPathOf cacheDir step endpoint payload version)
      (resultPathOf cacheDir step endpoint payload version) =
      tryLookup fs (some t) now
        (metaPathOf cacheDir step endpoint payload version)
        (resultPathOf cacheDir step endpoint payload version) := by
    simp [lookupPhase, pathExists, hres]
  have htl := tryLookup_ttl_meta fs now
    (metaPathOf cacheDir step endpoint payload version)
    (resultPathOf cacheDir step endpoint payload version) hmeta hc (t := t)
  constructor
  · intro hst
    have h1 : (lookupPhase fs (some t) now false
        (metaPathOf cacheDir step endpoint payload version)
        (resultPathOf cacheDir step endpoint payload version)).1 = none := by
      rw [hlp, htl, if_pos hst]
    rw [query_miss step endpoint payload fetch cacheDir version (some t) false hasHook
      env fs now h1]
    exact ⟨rfl, rfl, rfl⟩
  · intro hst
    have h2 : lookupPhase fs (some t) now false
        (metaPathOf cacheDir step endpoint payload version)
        (resultPathOf cacheDir step endpoint payload version) =
        (some (markFromCache r),
         [metaPathOf cacheDir step endpoint payload version,
          resultPathOf cacheDir step endpoint payload version]) := by
      rw [hlp, htl, if_neg hst]
      simp [_read_json, hres]
    rw [query_hit step endpoint payload fetch cacheDir version (some t) false hasHook
      env fs now h2]
    exact ⟨rfl, rfl, rfl⟩

/-- Witness for C4: with `ttl=60` and `created_at = 100`, a call at time
161 (age 61) refetches while a call at time 159 (age 59) serves the hit. -/
theorem C4_ttl_strict_boundary_witness :
    ((161 : Int) - 100 > 60) ∧ (¬ ((159 : Int) - 100 > 60)) ∧
    (query_nim_cached "s" "e" Json.null (fun _ => (7, Json.str "fresh")) "c" none
      (some 60) false false ⟨true, fun _ => true, true⟩
      [((metaPathOf "c" "s" "e" Json.null none),
        FileData.json (Json.obj [("created_at", Json.num 100)])),
       ((resultPathOf "c" "s" "e" Json.null none), FileData.json (Json.str "r"))]
      161).fetches = [Json.null] ∧
    (query_nim_cached "s" "e" Json.null (fun _ => (7, Json.str "fresh")) "c" none
      (some 60) false false ⟨true, fun _ => true, true⟩
      [((metaPathOf "c" "s" "e" Json.null none),
        FileData.json (Json.obj [("created_at", Json.num 100)])),
       ((resultPathOf "c" "s" "e" Json.null none), FileData.json (Json.str "r"))]
      159).fetches = [] :=
  have hne : resultPathOf "c" "s" "e" Json.null none ≠
      metaPathOf "c" "s" "e" Json.null none :=
    (artifact_paths_distinct "c" "s" "e" Json.null none).1
  have hmeta : sGet
      [((metaPathOf "c" "s" "e" Json.null none),
        FileData.json (Json.obj [("created_at", Json.num 100)])),
       ((resultPathOf "c" "s" "e" Json.null none), FileData.json (Json.str "r"))]
      (metaPathOf "c" "s" "e" Json.null none) =
      some (FileData.json (Json.obj [("created_at", Json.num 100)])) := by
    simp [sGet]
  have hres : sGet
      [((metaPathOf "c" "s" "e" Json.null none),
        FileData.json (Json.obj [("created_at", Json.num 100)])),
       ((resultPathOf "c" "s" "e" Json.null none), FileData.json (Json.str "r"))]
      (resultPathOf "c" "s" "e" Json.null none) =
      some (FileData.json (Json.str "r")) := by
    simp [sGet, hne]
  have hc : metaCreatedAt (Json.obj [("created_at", Json.num 100)]) = some 100 := rfl
  have hstale := (C4_ttl_strict_boundary "s" "e" Json.null
    (fun _ => (7, Json.str "fresh")) "c" none false ⟨true, fun _ => true, true⟩ _ 161
    (Json.obj [("created_at", Json.num 100)]) (Json.str "r") 100 60 _
    hmeta hc hres rfl).1 (by decide)
  have hfresh := (C4_ttl_strict_boundary "s" "e" Json.null
    (fun _ => (7, Json.str "fresh")) "c" none false ⟨true, fun _ => true, true⟩ _ 159
    (Json.obj [("created_at", Json.num 100)]) (Json.str "r") 100 60 _
    hmeta hc hres rfl).2 (by decide)
  ⟨by decide, by decide, hstale.1, hfresh.1⟩

/-- C9: readable metadata that is a mapping without a `created_at` field
defaults the timestamp to 0, so the age is the whole current epoch time;
whenever `now` exceeds the TTL the entry is treated as stale and the
collaborator is re-invoked — the lenient not-yet-expired default does not
apply to readable metadata missing the field. -/
theorem C9_missing_created_at_defaults_to_zero (step endpoint : String)
    (payload : Json) (fetch : Json → Int × Json) (cacheDir : String)
    (version : Option String) (hasHook : Bool) (env : Env) (fs : FS) (now : Int)
    (kvs : List (String × Json)) (t : Int) (out : QOut)
    (hmeta : sGet fs (metaPathOf cacheDir step endpoint payload version) =
      some (.json (.obj kvs)))
    (hnone : sGet kvs "created_at" = none)
    (hres : pathExists fs (resultPathOf cacheDir step endpoint payload version) = true)
    (hstale : now > t)
    (hout : out = query_nim_cached step endpoint payload fetch cacheDir version
      (some t) false hasHook env fs now) :
    out.fetches = [payload] ∧ out.rc = (fetch payload).1 ∧
    out.resp = (fetch payload).2 := by
  subst hout
  have hcm : metaCreatedAt (.obj kvs) = some 0 := by
    simp [metaCreatedAt, hnone, pyFloat]
  have hlp : lookupPhase fs (some t) now false
      (metaPathOf cacheDir step endpoint payload version)
      (resultPathOf cacheDir step endpoint payload version) =
      tryLookup fs (some t) now
        (metaPathOf cacheDir step endpoint payload version)
        (resultPathOf cacheDir step endpoint payload version) := by
    simp [lookupPhase, hres]
  have htl := tryLookup_ttl_meta fs now
    (metaPathOf cacheDir step endpoint payload version)
    (resultPathOf cacheDir step endpoint payload version) hmeta hcm (t := t)
  have hst : now - 0 > t := by simpa using hstale
  have h1 : (lookupPhase fs (some t) now false
      (metaPathOf cacheDir step endpoint payload version)
      (resultPathOf cacheDir step endpoint payload version)).1 = none := by
    rw [hlp, htl, if_pos hst]
  rw [query_miss step endpoint payload fetch cacheDir version (some t) false hasHook
    env fs now h1]
  exact ⟨rfl, rfl, rfl⟩

/-- Witness for C9: metadata `{"other": 1}` with `ttl=60` at time 61 makes
the concrete call refetch. -/
theorem C9_missing_created_at_defaults_to_zero_witness :
    sGet [("other", Json.num 1)] "created_at" = none ∧ ((61 : Int) > 60) ∧
    (query_nim_cached "s" "e" Json.null (fun _ => (7, Json.str "fresh")) "c" none
      (some 60) false false ⟨true, fun _ => true, true⟩
      [((metaPathOf "c" "s" "e" Json.null none),
        FileData.json (Json.obj [("other", Json.num 1)])),
       ((resultPathOf "c" "s" "e" Json.null none), FileData.json (Json.str "r"))]
      61).fetches = [Json.null] :=
  have hne : resultPathOf "c" "s" "e" Json.null none ≠
      metaPathOf "c" "s" "e" Json.null none :=
    (artifact_paths_distinct "c" "s" "e" Json.null none).1
  have hmeta : sGet
      [((metaPathOf "c" "s" "e" Json.null none),
        FileData.json (Json.obj [("other", Json.num 1)])),
       ((resultPathOf "c" "s" "e" Json.null none), FileData.json (Json.str "r"))]
      (metaPathOf "c" "s" "e" Json.null none) =
      some (FileData.json (Json.obj [("other", Json.num 1)])) := by
    simp [sGet]
  have hres : pathExists
      [((metaPathOf "c" "s" "e" Json.null none),
        FileData.json (Json.obj [("other", Json.num 1)])),
       ((resultPathOf "c" "s" "e" Json.null none), FileData.json (Json.str "r"))]
      (resultPathOf "c" "s" "e" Json.null none) = true := by
    simp [pathExists, sGet, hne]
  ⟨rfl, by decide,
   (C9_missing_created_at_defaults_to_zero "s" "e" Json.null
     (fun _ => (7, Json.str "fresh")) "c" none false ⟨true, fun _ => true, true⟩ _ 61
     [("other", Json.num 1)] 60 _ hmeta rfl hres (by decide) rfl).1⟩

/-- C10: the `save_extra` hook is invoked at most once per call, only on
the miss path (so the collaborator was invoked), only when a hook was
supplied and the directory creation and all three artifact writes
succeeded — and then with the response and the entry directory; on a hit
it is never invoked. -/
theorem C10_save_extra_discipline (step endpoint : String) (payload : Json)
    (fetch : Json → Int × Json) (cacheDir : String) (version : Option String)
    (ttl : Option Int) (refresh hasHook : Bool) (env : Env) (fs : FS) (now : Int)
    (out : QOut)
    (hout : out = query_nim_cached step endpoint payload fetch cacheDir version ttl
      refresh hasHook env fs now) :
    out.extras.length ≤ 1 ∧
    (out.extras ≠ [] →
      hasHook = true ∧ out.fetches = [payload] ∧ env.mkdirOk = true ∧
      env.writeOk (metaPathOf cacheDir step endpoint payload version) = true ∧
      env.writeOk (payloadPathOf cacheDir step endpoint payload version) = true ∧
      env.writeOk (resultPathOf cacheDir step endpoint payload version) = true ∧
      out.extras =
        [((fetch payload).2, outdirOf cacheDir step endpoint payload version)]) ∧
    ((lookupPhase fs ttl now refresh
        (metaPathOf cacheDir step endpoint payload version)
        (resultPathOf cacheDir step endpoint payload version)).1.isSome = true →
      out.extras = []) := by
  subst hout
  rcases hl : lookupPhase fs ttl now refresh
    (metaPathOf cacheDir step endpoint payload version)
    (resultPathOf cacheDir step endpoint payload version) with ⟨o, rds⟩
  cases o with
  | some r =>
    rw [query_hit step endpoint payload fetch cacheDir version ttl refresh hasHook
      env fs now hl]
    exact ⟨by simp, fun hne => absurd rfl hne, fun _ => rfl⟩
  | none =>
    have h1 : (lookupPhase fs ttl now refresh
        (metaPathOf cacheDir step endpoint payload version)
        (resultPathOf cacheDir step endpoint payload version)).1 = none := by
      rw [hl]
    rw [query_miss step endpoint payload fetch cacheDir version ttl refresh hasHook
      env fs now h1]
    dsimp only
    rw [persistPhase_extras]
    by_cases hcond : (env.mkdirOk &&
        env.writeOk (metaPathOf cacheDir step endpoint payload version) &&
        env.writeOk (payloadPathOf cacheDir step endpoint payload version) &&
        env.writeOk (resultPathOf cacheDir step endpoint payload version) &&
        hasHook) = true
    · rw [if_pos hcond]
      simp only [Bool.and_eq_true] at hcond
      refine ⟨by simp, fun _ => ?_, fun habs => ?_⟩
      · exact ⟨hcond.2, rfl, hcond.1.1.1.1, hcond.1.1.1.2, hcond.1.1.2, hcond.1.2, rfl⟩
      · simp at habs
    · rw [if_neg hcond]
      exact ⟨by simp, fun hne => absurd rfl hne, fun _ => rfl⟩

/-- Witness for C10: a concrete refresh-miss with a hook and all writes
succeeding invokes the hook (nonempty record), and the theorem yields that
the collaborator was invoked on that same call. -/
theorem C10_save_extra_discipline_witness :
    (query_nim_cached "s" "e" Json.null (fun _ => (3, Json.str "x")) "c" none none
      true true ⟨true, fun _ => true, true⟩ [] 0).extras ≠ [] ∧
    (query_nim_cached "s" "e" Json.null (fun _ => (3, Json.str "x")) "c" none none
      true true ⟨true, fun _ => true, true⟩ [] 0).fetches = [Json.null] :=
  have h1 : (lookupPhase [] none 0 true (metaPathOf "c" "s" "e" Json.null none)
      (resultPathOf "c" "s" "e" Json.null none)).1 = none := by
    rw [lookupPhase_refresh]
  have hq := query_miss "s" "e" Json.null (fun _ => (3, Json.str "x")) "c" none none
    true true ⟨true, fun _ => true, true⟩ [] 0 h1
  have hne : (query_nim_cached "s" "e" Json.null (fun _ => (3, Json.str "x")) "c"
      none none true true ⟨true, fun _ => true, true⟩ [] 0).extras ≠ [] := by
    rw [hq]
    dsimp only
    rw [persistPhase_allOk _ _ _ _ _ _ rfl rfl rfl rfl]
    simp
  ⟨hne, ((C10_save_extra_discipline "s" "e" Json.null (fun _ => (3, Json.str "x"))
    "c" none none true true ⟨true, fun _ => true, true⟩ [] 0 _ rfl).2.1 hne).2.1⟩

end Aif
